import Mathlib

/-!
Shallow embedding of `src/sourceClassifier.py` (the classification engine of
the sourceBot repository) and proofs about the frozen claims.

Modelling conventions:
- Python floats are modelled as exact rationals (ℚ) for scores and vote
  weights, and as real numbers (ℝ) for the softmax confidences, since the
  softmax uses `math.exp`.  All weight constants in the source are exact
  decimals, so the rational model is exact.
- `datetime.now().year` (the function `now_year`) is modelled by an explicit
  `year : ℕ` parameter threaded through every function that calls it.
- Python strings are Lean `String`s; all scanning helpers are written over
  `List Char` by structural recursion (or with an explicit fuel argument
  equal to the input length when a scanner skips several characters at
  once), so that every definition is executable and kernel-reducible.
- Each regular-expression use of the source is implemented by a dedicated
  scanner that follows the leftmost-match semantics of `re.search` /
  `re.findall` / `re.sub` for the concrete pattern in question; the pattern
  is quoted in the comment next to each scanner.
-/

-- ------------------------
-- CONFIG (sourceClassifier.py lines 36-168)
-- ------------------------

inductive Category where
  | Primary
  | Secondary
  | Tertiary
  | Other
deriving DecidableEq, Fintype

def CATEGORIES : List Category :=
  [Category.Primary, Category.Secondary, Category.Tertiary, Category.Other]

def catName : Category → String
  | Category.Primary => "Primary"
  | Category.Secondary => "Secondary"
  | Category.Tertiary => "Tertiary"
  | Category.Other => "Other"

def PRIMARY_YEAR_WINDOW : ℕ × ℕ := (1989, 1995)

def DOMAIN_HINTS_PRIMARY : List String :=
  ["info.cern.ch", "cern.ch", "ietf.org", "rfc-editor.org", "w3.org"]

def DOMAIN_HINTS_SECONDARY : List String :=
  ["jstor.org", "acm.org", "mit.edu", "nytimes.com", "arxiv.org", "wired.com",
   "theguardian.com", "nature.com"]

def DOMAIN_HINTS_TERTIARY : List String :=
  ["wikipedia.org", "britannica.com", "scholarpedia.org", "britannica.co.uk"]

def DOMAIN_HINTS_OTHER : List String :=
  ["blogspot.", "medium.com", "substack.com", "reddit.com", "github.io",
   "wordpress.com"]

def PRIMARY_KEYWORDS : List (String × ℚ) :=
  [("original document", 2.0), ("archival", 1.7), ("archive copy", 1.5),
   ("source code", 2.2), ("rfc", 2.2), ("specification", 1.6),
   ("minutes", 1.8), ("memo", 1.6), ("press release", 1.5),
   ("primary source", 2.0), ("scan", 1.6)]

def SECONDARY_KEYWORDS : List (String × ℚ) :=
  [("analysis", 1.6), ("overview", 1.6), ("history of the web", 2.1),
   ("short history of", 2.3), ("retrospective", 2.0), ("we look back", 1.9),
   ("this page recounts", 1.9), ("case study", 1.6), ("review article", 1.8),
   ("synthesis", 1.5), ("survey", 1.5)]

def TERTIARY_KEYWORDS : List (String × ℚ) :=
  [("encyclopedia", 2.1), ("glossary", 1.6), ("compendium", 1.8),
   ("dictionary", 1.6), ("almanac", 1.6)]

def OTHER_KEYWORDS : List (String × ℚ) :=
  [("blog", 1.2), ("personal", 0.9), ("opinion", 1.1), ("musings", 1.0),
   ("my thoughts", 1.0)]

def URL_TERTIARY_CUES : List String := ["/wiki/", "/encyclopedia"]

def URL_SECONDARY_CUES : List String :=
  ["/history-of", "/short-history", "/retrospective", "/timeline",
   "/overview", "/case-study"]

def URL_PRIMARY_CUES : List String :=
  ["/rfc/", "/spec/", "/specification", "/minutes", "/memos/",
   "/press-release"]

def STRUCTURE_SECONDARY_HEADERS : List String :=
  ["background", "methodology", "results", "discussion", "conclusion",
   "related work", "literature review"]

-- Defined in the source (line 152) but never read by any voter.
def STRUCTURE_TERTIARY_HEADERS : List String :=
  ["see also", "references", "external links", "further reading"]

-- Written as `8` (OfNat) rather than `8.0` so that the kernel can reduce
-- comparisons against it; the value is identical.
def PER_VOTER_CAP : ℚ := 3.5

def PER_CATEGORY_CAP : ℚ := 8

def SOFTMAX_TEMP : ℝ := 1.25

def EXPLICIT_OVERRIDES : List (String × Category) :=
  [("home.cern/science/computing/birth-web/short-history-web",
    Category.Secondary)]

-- ------------------------
-- STRING UTILITIES
-- ------------------------

/-- Python `str.lower()` (ASCII model). -/
def lowerStr (s : String) : String := String.mk (s.data.map Char.toLower)

def isPrefixL : List Char → List Char → Bool
  | [], _ => true
  | _ :: _, [] => false
  | a :: as, b :: bs => a == b && isPrefixL as bs

/-- Python substring containment `needle in hay`, on character lists. -/
def isInfixL : List Char → List Char → Bool
  | n, [] => isPrefixL n []
  | n, c :: r => isPrefixL n (c :: r) || isInfixL n r

def isSubstr (needle hay : String) : Bool := isInfixL needle.data hay.data

/-- Embeds `any_in(substrs, hay)` from the source (line 187). -/
def any_in (substrs : List String) (hay : String) : Bool :=
  substrs.any (fun s => isSubstr s hay)

/-- Python regex `\s` character class (ASCII model: space, tab, LF, CR, FF, VT). -/
def isWS (c : Char) : Bool :=
  c == ' ' || c == '\t' || c == '\n' || c == '\r' || c == '\x0b' || c == '\x0c'

def splitWSAux : List Char → List Char → List (List Char)
  | acc, [] => [acc.reverse]
  | acc, c :: r => if isWS c then acc.reverse :: splitWSAux [] r
                   else splitWSAux (c :: acc) r

/-- Embeds `normalize_ws` (line 179): `re.sub(r"\s+", " ", s).strip()` — collapse
whitespace runs to single spaces and strip the ends. -/
def normalize_ws (s : String) : String :=
  String.intercalate " "
    (((splitWSAux [] s.data).filter (fun w => w ≠ [])).map String.mk)

/-- Python regex `\w` word-character class (ASCII model), for `\b` boundaries. -/
def isWordChar (c : Char) : Bool := c.isAlphanum || c == '_'

def boundaryOk : Option Char → Bool
  | none => true
  | some c => !(isWordChar c)

def afterBoundaryOk : List Char → Bool
  | [] => true
  | c :: _ => !(isWordChar c)

def wordMatchAt (kw : List Char) (prev : Option Char) (l : List Char) : Bool :=
  boundaryOk prev && isPrefixL kw l && afterBoundaryOk (l.drop kw.length)

def wordSearchAux (kw : List Char) : Option Char → List Char → Bool
  | _, [] => false
  | prev, c :: r => wordMatchAt kw prev (c :: r) || wordSearchAux kw (some c) r

/-- Embeds `re.search(rf"\b{kw}\b", s)` as a Boolean, for a literal keyword `kw`. -/
def wordSearch (kw : String) (s : String) : Bool :=
  wordSearchAux kw.data none s.data

/-- Embeds `re.search(r"\b(w1|w2|...)\b", s)` for literal word alternatives. -/
def wordAny (kws : List String) (s : String) : Bool :=
  kws.any (fun k => wordSearch k s)

/-- Python `s.replace(pat, rep)` (all occurrences, left to right,
non-overlapping); fuel is the input length. -/
def replaceAllAux (pat rep : List Char) : ℕ → List Char → List Char
  | _, [] => []
  | 0, l => l
  | fuel + 1, c :: r =>
      if pat ≠ [] && isPrefixL pat (c :: r) then
        rep ++ replaceAllAux pat rep fuel ((c :: r).drop pat.length)
      else
        c :: replaceAllAux pat rep fuel r

def replaceAll (s pat rep : String) : String :=
  String.mk (replaceAllAux pat.data rep.data s.data.length s.data)

/-- Case-insensitive literal-prefix test; `pat` is given lower-cased. -/
def isPrefixCI : List Char → List Char → Bool
  | [], _ => true
  | _ :: _, [] => false
  | a :: as, b :: bs => a == Char.toLower b && isPrefixCI as bs

/-- Drop through the first case-insensitive occurrence of `pat`, returning
the remainder after it. -/
def dropThroughCI (pat : List Char) : List Char → Option (List Char)
  | [] => none
  | c :: r => if isPrefixCI pat (c :: r) then some ((c :: r).drop pat.length)
              else dropThroughCI pat r

/-- Remainder after the first `>` (used for the `[^>]*>` part of tag
patterns: every character before the first `>` is trivially not `>`). -/
def gtSearch : List Char → Option (List Char)
  | [] => none
  | c :: r => if c == '>' then some r else gtSearch r

/-- Remainder after the first `>` requiring at least one character before it
(the `<[^>]+>` body: fails immediately on `<>`). -/
def splitAtGT : List Char → Option (List Char)
  | [] => none
  | c :: r => if c == '>' then none else gtSearch r

/-- First case-sensitive occurrence of `pat`; returns the remainder after it. -/
def afterLit (pat : List Char) : List Char → Option (List Char)
  | [] => none
  | c :: r => if isPrefixL pat (c :: r) then some ((c :: r).drop pat.length)
              else afterLit pat r


-- ------------------------
-- HTML / TEXT EXTRACTION (source lines 192-260)
-- ------------------------

/-- One removal step for `re.sub(r"(?is)<(script|style).*?>.*?</\1>", " ", html)`:
at a case-insensitive `<script` or `<style`, skip lazily to the first `>`,
then lazily to the matching close tag, and replace the whole match by a
single space; fuel is the input length (each match consumes characters). -/
def stripScriptsAux : ℕ → List Char → List Char
  | _, [] => []
  | 0, l => l
  | fuel + 1, c :: r =>
      if isPrefixCI "<script".data (c :: r) then
        match gtSearch ((c :: r).drop 7) with
        | some rest1 =>
            match dropThroughCI "</script>".data rest1 with
            | some rest2 => ' ' :: stripScriptsAux fuel rest2
            | none => c :: stripScriptsAux fuel r
        | none => c :: stripScriptsAux fuel r
      else if isPrefixCI "<style".data (c :: r) then
        match gtSearch ((c :: r).drop 6) with
        | some rest1 =>
            match dropThroughCI "</style>".data rest1 with
            | some rest2 => ' ' :: stripScriptsAux fuel rest2
            | none => c :: stripScriptsAux fuel r
        | none => c :: stripScriptsAux fuel r
      else c :: stripScriptsAux fuel r

/-- Embeds `re.sub(r"(?is)<[^>]+>", " ", html)`: replace every tag-shaped span by a
space; an unmatched `<` (no later `>`, or an immediate `>`) stays. -/
def stripTagsAux : ℕ → List Char → List Char
  | _, [] => []
  | 0, l => l
  | fuel + 1, c :: r =>
      if c == '<' then
        match splitAtGT r with
        | some rest => ' ' :: stripTagsAux fuel rest
        | none => c :: stripTagsAux fuel r
      else c :: stripTagsAux fuel r

/-- Embeds `strip_tags` (lines 192-203): script/style removal, tag removal, the six
basic entity replacements, then whitespace normalization. -/
def strip_tags (html : String) : String :=
  if html = "" then ""
  else
    let h1 := String.mk (stripScriptsAux html.data.length html.data)
    let h2 := String.mk (stripTagsAux h1.data.length h1.data)
    let h3 := replaceAll h2 "&nbsp;" " "
    let h4 := replaceAll h3 "&amp;" "&"
    let h5 := replaceAll h4 "&lt;" "<"
    let h6 := replaceAll h5 "&gt;" ">"
    let h7 := replaceAll h6 "&quot;" "\""
    let h8 := replaceAll h7 "&#39;" "'"
    normalize_ws h8

/-- Characters before the first case-insensitive occurrence of `pat`
(the lazy capture `(.*?)` followed by the literal `pat`). -/
def captureUntilCI (pat : List Char) : List Char → Option (List Char)
  | [] => none
  | c :: r => if isPrefixCI pat (c :: r) then some []
              else (captureUntilCI pat r).map (fun l => c :: l)

/-- Search loop for `re.search(r"(?is)<title[^>]*>(.*?)</title>", html)`:
at each position try to complete the pattern, otherwise advance one
character; fuel is the input length. -/
def titleSearchAux : ℕ → List Char → Option (List Char)
  | _, [] => none
  | 0, _ => none
  | fuel + 1, c :: r =>
      if isPrefixCI "<title".data (c :: r) then
        match gtSearch ((c :: r).drop 6) with
        | some rest1 =>
            match captureUntilCI "</title>".data rest1 with
            | some cap => some cap
            | none => titleSearchAux fuel r
        | none => titleSearchAux fuel r
      else titleSearchAux fuel r

/-- Embeds `extract_title` (lines 206-208). -/
def extract_title (html : String) : String :=
  match titleSearchAux html.data.length html.data with
  | some cap => normalize_ws (String.mk cap)
  | none => ""

/-- Consume one opening or closing quote character (`["']` in the patterns). -/
def quoteOpen : List Char → Option (List Char)
  | '"' :: r => some r
  | '\'' :: r => some r
  | _ => none

/-- Characters of the lazy capture `(.*?)` up to the first `"` or `'`. -/
def captureUntilQuote : List Char → Option (List Char)
  | [] => none
  | c :: r => if c == '"' || c == '\'' then some []
              else (captureUntilQuote r).map (fun l => c :: l)

/-- Scan for the literal `pat` (case-insensitive) without crossing a `>`;
returns the remainder after `pat`.  This realises the `[^>]*pat` portions of
the meta-tag patterns (the source's greedy `[^>]+`/`[^>]*` with backtracking
settles on an occurrence before the closing `>`; we take the first one). -/
def litNoGTAux (pat : List Char) : List Char → Option (List Char)
  | [] => none
  | c :: r =>
      if isPrefixCI pat (c :: r) then some ((c :: r).drop pat.length)
      else if c == '>' then none
      else litNoGTAux pat r

/-- The `[^>]+pat` portion: at least one (non-`>`) character before `pat`. -/
def findAttrNoGT (pat : List Char) : List Char → Option (List Char)
  | [] => none
  | c :: r => if c == '>' then none else litNoGTAux pat r

/-- Attempt the body of
`<meta[^>]+{attr}=["']{key}["'][^>]*content=["'](.*?)["']`
immediately after a matched `<meta`. -/
def metaBody (attr key : List Char) (l : List Char) : Option (List Char) := do
  let r1 ← findAttrNoGT (attr ++ ['=']) l
  let r2 ← quoteOpen r1
  let r3 := if isPrefixCI key r2 then some (r2.drop key.length) else none
  let r3 ← r3
  let r4 ← quoteOpen r3
  let r5 ← litNoGTAux "content=".data r4
  let r6 ← quoteOpen r5
  captureUntilQuote r6

/-- Search loop for one meta-tag pattern
`re.search(rf"(?is)<meta[^>]+{attr}=[\"']{key}[\"'][^>]*content=[\"'](.*?)[\"']", html)`. -/
def metaSearchAux (attr key : List Char) : ℕ → List Char → Option (List Char)
  | _, [] => none
  | 0, _ => none
  | fuel + 1, c :: r =>
      if isPrefixCI "<meta".data (c :: r) then
        match metaBody attr key ((c :: r).drop 5) with
        | some cap => some cap
        | none => metaSearchAux attr key fuel r
      else metaSearchAux attr key fuel r

def metaFindOne (attr key : String) (html : String) : Option String :=
  (metaSearchAux attr.data key.data html.data.length html.data).map
    (fun cap => normalize_ws (String.mk cap))

/-- Embeds `extract_meta` (lines 211-227): the fixed recognized tag names, in the
source's loop order; an association list models the Python dict. -/
def extract_meta (html : String) : List (String × String) :=
  (["description", "author", "keywords"].filterMap
    (fun k => (metaFindOne "name" k html).map (fun v => (k, v))))
  ++ (["og:title", "og:description", "twitter:title",
       "twitter:description"].filterMap
    (fun k => (metaFindOne "property" k html).map (fun v => (k, v))))
  ++ (["article:published_time", "article:modified_time",
       "og:updated_time"].filterMap
    (fun k => (metaFindOne "property" k html).map (fun v => (k, v))))

/-- Embeds `meta.get(key, "")`. -/
def metaGetOr (meta : List (String × String)) (k : String) : String :=
  (meta.lookup k).getD ""

/-- Python `a or b` on strings (empty string is falsy). -/
def pyOrStr (a b : String) : String := if a = "" then b else a

-- ------------------------
-- YEAR EXTRACTION (source lines 230-235) — note the capturing group
-- ------------------------

/-- One attempted match of `\b(18|19|20)\d{2}\b` at the head of `l`:
on success returns the CAPTURED GROUP (the two leading digits only — this is
what `re.findall` returns when the pattern has one group), the remainder
after the full four-digit match, and the last matched character. -/
def yearMatchAt (prev : Option Char) (l : List Char) :
    Option (String × List Char × Char) :=
  match l with
  | d1 :: d2 :: d3 :: d4 :: rest =>
      if boundaryOk prev
          && ((d1 == '1' && (d2 == '8' || d2 == '9')) || (d1 == '2' && d2 == '0'))
          && d3.isDigit && d4.isDigit
          && afterBoundaryOk rest then
        some (String.mk [d1, d2], rest, d4)
      else none
  | _ => none

/-- Embeds `re.findall(r"\b(18|19|20)\d{2}\b", text)`: left-to-right scan, matches
non-overlapping, returning the list of group captures; fuel is the input
length. -/
def yearScanAux : ℕ → Option Char → List Char → List String
  | 0, _, _ => []
  | _ + 1, _, [] => []
  | fuel + 1, prev, c :: r =>
      match yearMatchAt prev (c :: r) with
      | some (g, rest, lastd) => g :: yearScanAux fuel (some lastd) rest
      | none => yearScanAux fuel (some c) r

/-- Python `int()` on a decimal digit string (only ever applied to the
two-character group captures here). -/
def strToNat (s : String) : ℕ :=
  s.data.foldl (fun a c => a * 10 + (c.toNat - 48)) 0

/-- Embeds `extract_years` (lines 230-235): the set comprehension filters the
captured values by `1800 < y <= now_year()`, then returns (min, max), or
(None, None) when the set is empty.  `year` models `now_year()`. -/
def extract_years (year : ℕ) (text : String) : Option ℕ × Option ℕ :=
  let groups := yearScanAux text.data.length none text.data
  let years := (groups.map strToNat).filter (fun y => 1800 < y && y ≤ year)
  match years with
  | [] => (none, none)
  | y :: ys => (some (ys.foldl Nat.min y), some (ys.foldl Nat.max y))

-- ------------------------
-- URL PARSING (source lines 238-245)
-- ------------------------

structure UrlParts where
  domain : String
  path : String
  query : String
  full : String
deriving DecidableEq

/-- Split at the first character in `stops`: returns the part before it and
the remainder including the stop character. -/
def takeUntilAny (stops : List Char) : List Char → List Char × List Char
  | [] => ([], [])
  | c :: r =>
      if stops.contains c then ([], c :: r)
      else
        let p := takeUntilAny stops r
        (c :: p.1, p.2)

/-- Embeds `parse_url` (lines 238-245).  Models `urllib.parse.urlparse` for the URL
shapes the classifier handles: with a `scheme://` the authority runs to the
first of `/?#`, the path to the first of `?#`, the query to `#`; without a
scheme the whole string is path (plus optional query).  All four fields are
lower-cased, as in the source. -/
def parse_url (url : String) : UrlParts :=
  let low := lowerStr url
  match afterLit "://".data low.data with
  | some rest =>
      let p1 := takeUntilAny ['/', '?', '#'] rest
      let p2 := takeUntilAny ['?', '#'] p1.2
      let query := match p2.2 with
        | '?' :: q => (takeUntilAny ['#'] q).1
        | _ => []
      ⟨String.mk p1.1, String.mk p2.1, String.mk query, low⟩
  | none =>
      let p2 := takeUntilAny ['?', '#'] low.data
      let query := match p2.2 with
        | '?' :: q => (takeUntilAny ['#'] q).1
        | _ => []
      ⟨"", String.mk p2.1, String.mk query, low⟩

def endsWithL (pat l : List Char) : Bool := isPrefixL pat.reverse l.reverse

/-- Embeds `looks_like_pdf` (lines 248-255). -/
def looks_like_pdf (url : String) (html_text : String) : Bool :=
  let u := lowerStr url
  if endsWithL ".pdf".data u.data || isSubstr ".pdf?" u then true
  else if html_text ≠ "" && isInfixL "%PDF-".data (html_text.data.take 1024) then true
  else false

/-- Embeds `has_references_section` (lines 258-260):
`re.search(r"\b(references|bibliography|works cited|further reading)\b", safe_lower(text))`. -/
def has_references_section (text : String) : Bool :=
  wordAny ["references", "bibliography", "works cited", "further reading"]
    (lowerStr text)

-- ------------------------
-- QUOTE COUNTING (artifact voter, line 399)
-- ------------------------

def isOpenQuote (c : Char) : Bool := c == '“' || c == '"' || c == '\''

def isCloseQuote (c : Char) : Bool := c == '”' || c == '"' || c == '\''

/-- Remainder after the first closing-quote character, failing at a newline
(the pattern `[“\"\'].*?[”\"\']` has no DOTALL flag, so `.` cannot cross
`\n`). -/
def afterCloseQuote : List Char → Option (List Char)
  | [] => none
  | c :: r =>
      if isCloseQuote c then some r
      else if c == '\n' then none
      else afterCloseQuote r

/-- Embeds `len(re.findall(r"[“\"\'].*?[”\"\']", text))`: count the non-overlapping
lazy matches; fuel is the input length. -/
def countQuotesAux : ℕ → List Char → ℕ
  | 0, _ => 0
  | _ + 1, [] => 0
  | fuel + 1, c :: r =>
      if isOpenQuote c then
        match afterCloseQuote r with
        | some rest => 1 + countQuotesAux fuel rest
        | none => countQuotesAux fuel r
      else countQuotesAux fuel r

def countQuotes (text : String) : ℕ := countQuotesAux text.data.length text.data

-- ------------------------
-- DATA STRUCTURES (source lines 267-287)
-- ------------------------

structure Vote where
  category : Category
  amount : ℚ
  reason : String
deriving DecidableEq

/-- Python `min(a, b)` on numbers (returns the first argument on ties). -/
def pyMin (a b : ℚ) : ℚ := if b < a then b else a

/-- Python `max(a, b)` on numbers (returns the first argument on ties). -/
def pyMax (a b : ℚ) : ℚ := if a < b then b else a

/-- The per-vote clamp applied by `Tally.add` (line 281). -/
def clampVote (amt : ℚ) : ℚ := pyMax (-PER_VOTER_CAP) (pyMin PER_VOTER_CAP amt)

/-- The per-category clamp applied by `Tally.cap_categories` (line 287). -/
def clampCategory (s : ℚ) : ℚ := pyMax (-PER_CATEGORY_CAP) (pyMin PER_CATEGORY_CAP s)

/-- Python `f"{q:+.2f}"`-free part: the `:.2f` two-decimal rendering used in
trigger strings (display-only; decimal rendering of binary floats is
approximated by rounding the exact rational). -/
def fmt2 (q : ℚ) : String :=
  let n : ℤ := round (q * 100)
  let sign := if n < 0 then "-" else ""
  let m := n.natAbs
  sign ++ toString (m / 100) ++ "." ++ (if m % 100 < 10 then "0" else "")
    ++ toString (m % 100)

structure Tally where
  scores : Category → ℚ
  triggers : List String

/-- The dataclass default: every category's score starts at 0.0, no triggers. -/
def Tally.start : Tally := ⟨fun _ => 0, []⟩

/-- Embeds `Tally.add` (lines 279-283): clamp the amount to ±PER_VOTER_CAP, add it
to the category's score, and record the trigger string. -/
def Tally.add (t : Tally) (cat : Category) (amt : ℚ) (reason : String) : Tally :=
  let amt_capped := clampVote amt
  { scores := fun c => if c = cat then t.scores c + amt_capped else t.scores c,
    triggers := t.triggers ++ [reason ++ "+" ++ fmt2 amt_capped] }

/-- Embeds `Tally.cap_categories` (lines 285-287). -/
def Tally.cap_categories (t : Tally) : Tally :=
  { t with scores := fun c => clampCategory (t.scores c) }

-- ------------------------
-- VOTERS (source lines 294-402)
-- ------------------------

/-- Embeds `domain_voter` (lines 294-306). -/
def domain_voter (p : UrlParts) : List Vote :=
  (if any_in DOMAIN_HINTS_PRIMARY p.domain then
    [⟨Category.Primary, 1.1, "domain:primary:" ++ p.domain⟩] else [])
  ++ (if any_in DOMAIN_HINTS_SECONDARY p.domain then
    [⟨Category.Secondary, 1.6, "domain:secondary:" ++ p.domain⟩] else [])
  ++ (if any_in DOMAIN_HINTS_TERTIARY p.domain then
    [⟨Category.Tertiary, 2.2, "domain:tertiary:" ++ p.domain⟩] else [])
  ++ (if any_in DOMAIN_HINTS_OTHER p.domain then
    [⟨Category.Other, 1.1, "domain:other:" ++ p.domain⟩] else [])

/-- Embeds `url_path_voter` (lines 309-321). -/
def url_path_voter (p : UrlParts) : List Vote :=
  let path_full := lowerStr (p.path ++ "?" ++ p.query)
  ((URL_PRIMARY_CUES.filter (fun cue => isSubstr cue path_full)).map
    (fun cue => ⟨Category.Primary, 1.5, "url:primary:" ++ cue⟩))
  ++ ((URL_SECONDARY_CUES.filter (fun cue => isSubstr cue path_full)).map
    (fun cue => ⟨Category.Secondary, 1.8, "url:secondary:" ++ cue⟩))
  ++ ((URL_TERTIARY_CUES.filter (fun cue => isSubstr cue path_full)).map
    (fun cue => ⟨Category.Tertiary, 2.0, "url:tertiary:" ++ cue⟩))

def kwVotes (dict : List (String × ℚ)) (cat : Category) (tag : String)
    (joined : String) : List Vote :=
  (dict.filter (fun kw => isSubstr kw.1 joined)).map
    (fun kw => ⟨cat, kw.2, "kw:" ++ tag ++ ":" ++ kw.1⟩)

/-- Embeds `keyword_voter` (lines 324-343). -/
def keyword_voter (text_candidates : List String) : List Vote :=
  let joined := String.intercalate " "
    ((text_candidates.map lowerStr).filter (fun t => t ≠ ""))
  kwVotes PRIMARY_KEYWORDS Category.Primary "primary" joined
  ++ kwVotes SECONDARY_KEYWORDS Category.Secondary "secondary" joined
  ++ kwVotes TERTIARY_KEYWORDS Category.Tertiary "tertiary" joined
  ++ kwVotes OTHER_KEYWORDS Category.Other "other" joined

/-- The `meta_has_modern` test of `date_voter` (lines 350-352):
`any(str(y) in (meta_pub + " " + meta_mod) for y in range(2010, now_year() + 1))`. -/
def metaHasModern (year : ℕ) (meta : List (String × String)) : Bool :=
  let meta_pub := lowerStr (metaGetOr meta "article:published_time")
  let meta_mod := lowerStr (pyOrStr (metaGetOr meta "article:modified_time")
    (metaGetOr meta "og:updated_time"))
  ((List.range (year + 1 - 2010)).map (fun i => 2010 + i)).any
    (fun y => isSubstr (toString y) (meta_pub ++ " " ++ meta_mod))

/-- Embeds `date_voter` (lines 346-366).  (`if earliest and ...` / `if latest and ...`
truthiness: a value passing the `1800 < y` filter is never 0, so the model
uses plain `Option` matching.) -/
def date_voter (year : ℕ) (text_for_dates : String)
    (meta : List (String × String)) : List Vote :=
  let el := extract_years year text_for_dates
  let windowVotes : List Vote :=
    match el.1 with
    | some e =>
        if PRIMARY_YEAR_WINDOW.1 ≤ e && e ≤ PRIMARY_YEAR_WINDOW.2 then
          ⟨Category.Primary, 1.4, "date:early_web:" ++ toString e⟩ ::
            (match el.2 with
             | some la => if PRIMARY_YEAR_WINDOW.2 + 5 < la then
                 [⟨Category.Secondary, 1.7, "date:modern_retro"⟩] else []
             | none => [])
        else [⟨Category.Secondary, 1.0, "date:recent:" ++ toString e⟩]
    | none => []
  windowVotes ++
    (if metaHasModern year meta then
      [⟨Category.Secondary, 0.8, "meta:modern_pub"⟩] else [])

/-- Embeds `structure_voter` (lines 369-385). -/
def structure_voter (full_text : String) : List Vote :=
  let text := lowerStr full_text
  ((STRUCTURE_SECONDARY_HEADERS.filter (fun h => wordSearch h text)).map
    (fun h => ⟨Category.Secondary, 0.6, "struct:secondary:" ++ h⟩))
  ++ (if has_references_section text then
      [⟨Category.Secondary, 0.8, "struct:references"⟩,
       ⟨Category.Tertiary, 0.4, "struct:references:ter"⟩] else [])
  ++ (if wordAny ["definition", "definitions", "terminology", "nomenclature",
        "lexicon"] text then
      [⟨Category.Tertiary, 0.6, "struct:definitions"⟩] else [])

/-- Embeds `artifact_voter` (lines 388-402).  Note the title test is for the
substring `"rfc "` — with a trailing space — of the lower-cased title. -/
def artifact_voter (p : UrlParts) (title : String) (text : String) : List Vote :=
  (if looks_like_pdf p.full text then
    [⟨Category.Primary, 1.2, "artifact:pdf"⟩] else [])
  ++ (if isSubstr "/rfc/" p.path || isSubstr "rfc " (lowerStr title) then
    [⟨Category.Primary, 1.8, "artifact:rfc"⟩] else [])
  ++ (if wordAny ["must", "shall", "should", "may", "conform", "requirement"]
        (lowerStr text) then
    [⟨Category.Primary, 0.7, "artifact:spec_language"⟩] else [])
  ++ (if 8 ≤ countQuotes text then
    [⟨Category.Secondary, 0.6, "artifact:heavy_quotes"⟩] else [])

-- ------------------------
-- CORE CLASSIFIER (source lines 421-523)
-- ------------------------

/-- The analysis text `text_for_kw` built inside `classify_source`
(lines 465-477): title, recognized meta fields and stripped body joined by
single spaces, with the external date hint appended when truthy. -/
def classifierTextForKw (raw_html : String) (meta_date_hint : Option String) :
    String :=
  let title := extract_title raw_html
  let meta := extract_meta raw_html
  let body_text := strip_tags raw_html
  let text_for_kw0 := String.intercalate " "
    [title, metaGetOr meta "description", metaGetOr meta "og:title",
     metaGetOr meta "og:description", metaGetOr meta "twitter:title",
     metaGetOr meta "twitter:description", body_text]
  match meta_date_hint with
  | some h => if h = "" then text_for_kw0 else text_for_kw0 ++ " " ++ h
  | none => text_for_kw0

/-- The six voter runs of `classify_source` (lines 482-489), each vote
tagged with its voter name as in the `(voter_name, votes)` list. -/
def domainVotes (url : String) : List (String × Vote) :=
  (domain_voter (parse_url url)).map (fun v => ("domain", v))

def urlPathVotes (url : String) : List (String × Vote) :=
  (url_path_voter (parse_url url)).map (fun v => ("url_path", v))

def keywordVotes (raw_html : String) (meta_date_hint : Option String) :
    List (String × Vote) :=
  (keyword_voter [extract_title raw_html,
    metaGetOr (extract_meta raw_html) "description",
    classifierTextForKw raw_html meta_date_hint]).map (fun v => ("keywords", v))

def dateVotes (year : ℕ) (raw_html : String) (meta_date_hint : Option String) :
    List (String × Vote) :=
  (date_voter year (classifierTextForKw raw_html meta_date_hint)
    (extract_meta raw_html)).map (fun v => ("dates", v))

def structureVotes (raw_html : String) : List (String × Vote) :=
  (structure_voter (strip_tags raw_html)).map (fun v => ("structure", v))

def artifactVotes (url raw_html : String) : List (String × Vote) :=
  (artifact_voter (parse_url url) (extract_title raw_html)
    (strip_tags raw_html)).map (fun v => ("artifact", v))

/-- The named votes produced by the six voters inside `classify_source`
(lines 459-493), in the source's run order. -/
def classifierVotes (year : ℕ) (url raw_html : String)
    (meta_date_hint : Option String) : List (String × Vote) :=
  domainVotes url ++ urlPathVotes url ++ keywordVotes raw_html meta_date_hint
  ++ dateVotes year raw_html meta_date_hint ++ structureVotes raw_html
  ++ artifactVotes url raw_html

/-- The tally after all voters have run (lines 479-493), before category caps. -/
def classifierTally (year : ℕ) (url raw_html : String)
    (meta_date_hint : Option String) : Tally :=
  (classifierVotes year url raw_html meta_date_hint).foldl
    (fun t nv => t.add nv.2.category nv.2.amount (nv.1 ++ ":" ++ nv.2.reason))
    Tally.start

/-- The capped tally (line 496). -/
def cappedTally (year : ℕ) (url raw_html : String)
    (meta_date_hint : Option String) : Tally :=
  (classifierTally year url raw_html meta_date_hint).cap_categories

/-- Python `max(values)` over the four scores, in dict iteration order. -/
def maxValQ (s : Category → ℚ) : ℚ :=
  [s Category.Secondary, s Category.Tertiary, s Category.Other].foldl pyMax
    (s Category.Primary)

/-- The per-category exponential of `softmax` (line 412): the score shifted
by the maximum, divided by the temperature, exponentiated. -/
noncomputable def softmaxExp (scores : Category → ℚ) (temp : ℝ) (c : Category) : ℝ :=
  Real.exp ((((scores c : ℚ) : ℝ) - ((maxValQ scores : ℚ) : ℝ)) / temp)

/-- Embeds `sum(exps.values())` (line 413). -/
noncomputable def softmaxDenom (scores : Category → ℚ) (temp : ℝ) : ℝ :=
  (CATEGORIES.map (softmaxExp scores temp)).sum

/-- Embeds `softmax` (lines 409-414): shift by the max, exponentiate at temperature
`temp`, normalize (with the source's `or 1.0` guard on a zero denominator). -/
noncomputable def softmax (scores : Category → ℚ) (temp : ℝ) (c : Category) : ℝ :=
  softmaxExp scores temp c /
    (if softmaxDenom scores temp = 0 then 1 else softmaxDenom scores temp)

/-- Python `max(confidences, key=confidences.get)` (line 500): iterate the
keys in insertion order (CATEGORIES order), keeping the current best and
replacing it only on a strictly larger value — the first maximum wins. -/
noncomputable def pyMaxKey (f : Category → ℝ) : Category :=
  [Category.Secondary, Category.Tertiary, Category.Other].foldl
    (fun b c => if f b < f c then c else b) Category.Primary

structure ClassResult where
  category : Category
  confidence : ℝ
  scores : Category → ℚ
  confidences : Category → ℝ
  explanation : String
  triggers : List String

/-- The `explain=True` report (lines 504-514).  The source's `Confidence:` /
`Confidences:` lines render softmax floats in decimal; that decimal
rendering is display-only and left out of the model, as is `json.dumps`
formatting — the structured content (category, capped scores, title, meta,
first 300 triggers) is kept. -/
def explanationText (category : Category) (t : Tally) (title : String)
    (meta : List (String × String)) : String :=
  "Category: " ++ catName category ++ "\n"
  ++ "Scores (capped): " ++ String.intercalate ", "
      (CATEGORIES.map (fun c => catName c ++ "=" ++ fmt2 (t.scores c))) ++ "\n"
  ++ "Title: " ++ title ++ "\n"
  ++ "Meta: " ++ String.intercalate ", "
      (meta.map (fun kv => kv.1 ++ "=" ++ kv.2)) ++ "\n"
  ++ "Triggers:\n  - " ++ String.intercalate "\n  - " (t.triggers.take 300)

/-- Embeds `classify_source` (lines 421-523).  `year` models `now_year()`. -/
noncomputable def classify_source (year : ℕ) (url : String)
    (raw_html : String) (meta_date_hint : Option String) (explain : Bool) :
    ClassResult :=
  let url_l := lowerStr url
  match EXPLICIT_OVERRIDES.find? (fun p => isSubstr p.1 url_l) with
  | some pr =>
      { category := pr.2
        confidence := 0.98
        scores := fun c => if c = pr.2 then 10 else 0
        confidences := fun c => if c = pr.2 then (0.98 : ℝ) else 0.02 / 3
        explanation := "Explicit override matched: " ++ pr.1 ++ " -> "
          ++ catName pr.2
        triggers := ["override:" ++ pr.1] }
  | none =>
      let tally := cappedTally year url raw_html meta_date_hint
      let confidences := softmax tally.scores SOFTMAX_TEMP
      let category := pyMaxKey confidences
      let confidence := confidences category
      { category := category
        confidence := confidence
        scores := tally.scores
        confidences := confidences
        explanation := if explain then
            explanationText category tally (extract_title raw_html)
              (extract_meta raw_html)
          else ""
        triggers := tally.triggers }

-- ------------------------
-- BASIC LEMMAS ABOUT CLAMPS AND THE TALLY
-- ------------------------

lemma pyMax_self (a : ℚ) : pyMax a a = a := by
  simp [pyMax]

lemma clampVote_bounds (a : ℚ) :
    -PER_VOTER_CAP ≤ clampVote a ∧ clampVote a ≤ PER_VOTER_CAP := by
  simp only [clampVote, pyMin, pyMax, PER_VOTER_CAP]
  split_ifs <;> constructor <;> linarith

lemma clampVote_nonneg {a : ℚ} (h : 0 ≤ a) : 0 ≤ clampVote a := by
  simp only [clampVote, pyMin, pyMax, PER_VOTER_CAP]
  split_ifs <;> linarith

lemma clampVote_eq_of_le {a : ℚ} (h0 : 0 ≤ a) (h1 : a ≤ PER_VOTER_CAP) :
    clampVote a = a := by
  simp only [PER_VOTER_CAP] at h1
  simp only [clampVote, pyMin, pyMax, PER_VOTER_CAP]
  split_ifs <;> linarith

lemma clampCategory_bounds (s : ℚ) :
    -PER_CATEGORY_CAP ≤ clampCategory s ∧ clampCategory s ≤ PER_CATEGORY_CAP := by
  simp only [clampCategory, pyMin, pyMax, PER_CATEGORY_CAP]
  split_ifs <;> constructor <;> linarith

lemma clampCategory_zero : clampCategory 0 = 0 := by
  simp only [clampCategory, pyMin, pyMax, PER_CATEGORY_CAP]
  norm_num

lemma clampCategory_of_le {s : ℚ} (h : 21 / 5 ≤ s) :
    21 / 5 ≤ clampCategory s ∧ clampCategory s ≤ 8 := by
  simp only [clampCategory, pyMin, pyMax, PER_CATEGORY_CAP]
  split_ifs <;> constructor <;> linarith

lemma Tally.add_scores (t : Tally) (cat : Category) (amt : ℚ) (r : String)
    (c : Category) :
    (t.add cat amt r).scores c =
      if c = cat then t.scores c + clampVote amt else t.scores c := rfl

/-- Folding `Tally.add` over a vote list: each category's score is the sum of
the clamped amounts of the votes cast for it. -/
lemma foldl_add_scores (l : List (String × Vote)) (t0 : Tally) (c : Category) :
    (l.foldl
        (fun t nv => t.add nv.2.category nv.2.amount (nv.1 ++ ":" ++ nv.2.reason))
        t0).scores c
      = t0.scores c
        + ((l.filter (fun nv => nv.2.category = c)).map
            (fun nv => clampVote nv.2.amount)).sum := by
  induction l generalizing t0 with
  | nil => simp
  | cons nv l ih =>
      rw [List.foldl_cons, ih]
      by_cases h : nv.2.category = c
      · rw [List.filter_cons_of_pos (by simpa using h)]
        simp only [List.map_cons, List.sum_cons, Tally.add_scores, if_pos h.symm]
        ring
      · rw [List.filter_cons_of_neg (by simpa using h)]
        rw [Tally.add_scores, if_neg (fun hc => h hc.symm)]

/-- Position of a category in the fixed enumeration `CATEGORIES`. -/
def catIdx : Category → ℕ
  | Category.Primary => 0
  | Category.Secondary => 1
  | Category.Tertiary => 2
  | Category.Other => 3

-- ------------------------
-- SOFTMAX LEMMAS
-- ------------------------

lemma softmaxExp_pos (s : Category → ℚ) (T : ℝ) (c : Category) :
    0 < softmaxExp s T c := Real.exp_pos _

lemma softmaxDenom_pos (s : Category → ℚ) (T : ℝ) : 0 < softmaxDenom s T := by
  simp only [softmaxDenom, CATEGORIES, List.map_cons, List.map_nil,
    List.sum_cons, List.sum_nil, add_zero]
  have h1 := softmaxExp_pos s T Category.Primary
  have h2 := softmaxExp_pos s T Category.Secondary
  have h3 := softmaxExp_pos s T Category.Tertiary
  have h4 := softmaxExp_pos s T Category.Other
  linarith

lemma softmax_apply (s : Category → ℚ) (T : ℝ) (c : Category) :
    softmax s T c = softmaxExp s T c / softmaxDenom s T := by
  simp only [softmax]
  rw [if_neg (ne_of_gt (softmaxDenom_pos s T))]

lemma softmax_pos (s : Category → ℚ) (T : ℝ) (c : Category) :
    0 < softmax s T c := by
  rw [softmax_apply]
  exact div_pos (softmaxExp_pos s T c) (softmaxDenom_pos s T)

lemma softmax_le_one (s : Category → ℚ) (T : ℝ) (c : Category) :
    softmax s T c ≤ 1 := by
  rw [softmax_apply, div_le_one (softmaxDenom_pos s T)]
  have h1 := softmaxExp_pos s T Category.Primary
  have h2 := softmaxExp_pos s T Category.Secondary
  have h3 := softmaxExp_pos s T Category.Tertiary
  have h4 := softmaxExp_pos s T Category.Other
  simp only [softmaxDenom, CATEGORIES, List.map_cons, List.map_nil,
    List.sum_cons, List.sum_nil, add_zero]
  rcases c with _ | _ | _ | _ <;> linarith

lemma softmax_sum (s : Category → ℚ) (T : ℝ) :
    (CATEGORIES.map (softmax s T)).sum = 1 := by
  have hD := softmaxDenom_pos s T
  have hexp : softmaxDenom s T =
      softmaxExp s T Category.Primary + softmaxExp s T Category.Secondary
        + softmaxExp s T Category.Tertiary + softmaxExp s T Category.Other := by
    simp only [softmaxDenom, CATEGORIES, List.map_cons, List.map_nil,
      List.sum_cons, List.sum_nil, add_zero]
    ring
  simp only [CATEGORIES, List.map_cons, List.map_nil, List.sum_cons,
    List.sum_nil, add_zero, softmax_apply]
  rw [div_add_div_same, div_add_div_same, div_add_div_same,
    div_eq_one_iff_eq (ne_of_gt hD)]
  rw [hexp]
  ring

lemma softmax_congr (s : Category → ℚ) (T : ℝ) (c c₂ : Category)
    (h : s c = s c₂) : softmax s T c = softmax s T c₂ := by
  simp only [softmax, softmaxExp, h]

lemma maxValQ_of_const (s : Category → ℚ) (h : ∀ c c₂, s c = s c₂) :
    maxValQ s = s Category.Primary := by
  simp only [maxValQ, List.foldl_cons, List.foldl_nil]
  rw [show s Category.Secondary = s Category.Primary from h _ _,
    show s Category.Tertiary = s Category.Primary from h _ _,
    show s Category.Other = s Category.Primary from h _ _,
    pyMax_self, pyMax_self, pyMax_self]

lemma softmax_uniform (s : Category → ℚ) (T : ℝ) (h : ∀ c c₂, s c = s c₂)
    (c : Category) : softmax s T c = 1 / 4 := by
  have hexp : ∀ c₂, softmaxExp s T c₂ = 1 := by
    intro c₂
    simp only [softmaxExp, maxValQ_of_const s h, h c₂ Category.Primary,
      sub_self, zero_div, Real.exp_zero]
  have hden : softmaxDenom s T = 4 := by
    simp only [softmaxDenom, CATEGORIES, List.map_cons, List.map_nil,
      List.sum_cons, List.sum_nil, add_zero, hexp]
    norm_num
  rw [softmax_apply, hexp, hden]

-- ------------------------
-- ARGMAX LEMMA FOR pyMaxKey
-- ------------------------

/-- Python's `max(keys, key=f)` keeps the current best on ties, so the
result carries the maximal value and every strictly earlier key in the
enumeration has a strictly smaller value. -/
lemma pyMaxKey_argmax (f : Category → ℝ) :
    (∀ c, f c ≤ f (pyMaxKey f)) ∧
      (∀ c, catIdx c < catIdx (pyMaxKey f) → f c < f (pyMaxKey f)) := by
  simp only [pyMaxKey, List.foldl_cons, List.foldl_nil]
  split_ifs with h1 h2 h3 h4 h5 h6 h7 <;>
    constructor <;> intro c <;> rcases c with _ | _ | _ | _
  all_goals
    first
      | linarith
      | (intro hlt; first
          | exact absurd hlt (by decide)
          | linarith)

-- ------------------------
-- SUBSTRING LEMMAS
-- ------------------------

lemma isPrefixL_append_ext {n : List Char} :
    ∀ {l : List Char} (b : List Char), isPrefixL n l = true →
      isPrefixL n (l ++ b) = true := by
  induction n with
  | nil => intro l b _; simp [isPrefixL]
  | cons x xs ih =>
      intro l b h
      rcases l with _ | ⟨y, l⟩
      · simp [isPrefixL] at h
      · simp only [isPrefixL, Bool.and_eq_true] at h
        simp only [List.cons_append, isPrefixL, Bool.and_eq_true]
        exact ⟨h.1, ih b h.2⟩

lemma isInfixL_of_isPrefixL {n l : List Char} (h : isPrefixL n l = true) :
    isInfixL n l = true := by
  rcases l with _ | ⟨c, r⟩
  · simpa [isInfixL] using h
  · simp only [isInfixL, Bool.or_eq_true]
    exact Or.inl h

lemma isInfixL_append_left {n a : List Char} (b : List Char)
    (h : isInfixL n a = true) : isInfixL n (a ++ b) = true := by
  induction a with
  | nil =>
      simp only [isInfixL] at h
      exact isInfixL_of_isPrefixL (isPrefixL_append_ext b h)
  | cons c a ih =>
      simp only [isInfixL, Bool.or_eq_true] at h
      simp only [List.cons_append, isInfixL, Bool.or_eq_true]
      rcases h with h | h
      · exact Or.inl (isPrefixL_append_ext b h)
      · exact Or.inr (ih h)

lemma isPrefixL_map (f : Char → Char) :
    ∀ {n l : List Char}, isPrefixL n l = true →
      isPrefixL (n.map f) (l.map f) = true := by
  intro n
  induction n with
  | nil => intro l _; simp [isPrefixL]
  | cons x xs ih =>
      intro l h
      rcases l with _ | ⟨y, l⟩
      · simp [isPrefixL] at h
      · simp only [isPrefixL, Bool.and_eq_true, beq_iff_eq] at h
        simp only [List.map_cons, isPrefixL, Bool.and_eq_true, beq_iff_eq]
        exact ⟨by rw [h.1], ih h.2⟩

lemma isInfixL_map (f : Char → Char) {n l : List Char}
    (h : isInfixL n l = true) : isInfixL (n.map f) (l.map f) = true := by
  induction l with
  | nil =>
      simp only [isInfixL] at h
      exact isInfixL_of_isPrefixL (isPrefixL_map f h)
  | cons c r ih =>
      simp only [isInfixL, Bool.or_eq_true] at h
      simp only [List.map_cons, isInfixL, Bool.or_eq_true]
      rcases h with h | h
      · have := isPrefixL_map f h
        simpa using Or.inl this
      · exact Or.inr (ih h)

-- ------------------------
-- THE DEAD YEAR FILTER (extract_years)
-- ------------------------

lemma yearMatchAt_group {prev : Option Char} {l : List Char} {g : String}
    {rest : List Char} {d : Char} (h : yearMatchAt prev l = some (g, rest, d)) :
    g = "18" ∨ g = "19" ∨ g = "20" := by
  rcases l with _ | ⟨d1, _ | ⟨d2, _ | ⟨d3, _ | ⟨d4, r⟩⟩⟩⟩ <;>
    simp only [yearMatchAt] at h <;>
    try exact Option.noConfusion h
  split_ifs at h with hcond
  · simp only [Option.some.injEq, Prod.mk.injEq] at h
    obtain ⟨hg, -, -⟩ := h
    simp only [Bool.and_eq_true, Bool.or_eq_true, beq_iff_eq] at hcond
    obtain ⟨⟨⟨⟨-, halt⟩, -⟩, -⟩, -⟩ := hcond
    rcases halt with ⟨h1, h2 | h2⟩ | ⟨h1, h2⟩ <;>
      subst h1 <;> subst h2 <;> rw [← hg] <;> decide

lemma yearScanAux_mem {g : String} :
    ∀ (fuel : ℕ) (prev : Option Char) (l : List Char),
      g ∈ yearScanAux fuel prev l → g = "18" ∨ g = "19" ∨ g = "20" := by
  intro fuel
  induction fuel with
  | zero => intro prev l h; simp [yearScanAux] at h
  | succ n ih =>
      intro prev l h
      rcases l with _ | ⟨c, r⟩
      · simp [yearScanAux] at h
      · simp only [yearScanAux] at h
        rcases hm : yearMatchAt prev (c :: r) with _ | ⟨g0, rest, d0⟩
        · rw [hm] at h
          exact ih _ _ h
        · rw [hm] at h
          rcases List.mem_cons.mp h with h | h
          · exact h ▸ yearMatchAt_group hm
          · exact ih _ _ h

/-- The `re.findall` call in `extract_years` has a capturing group, so it
returns only the two-digit group captures `"18"`/`"19"`/`"20"`; these all
fail the `1800 < y` filter, so the year set is always empty and
`extract_years` always returns `(None, None)`. -/
lemma extract_years_none (year : ℕ) (text : String) :
    extract_years year text = (none, none) := by
  simp only [extract_years]
  have hfil : ((yearScanAux text.data.length none text.data).map strToNat).filter
      (fun y => 1800 < y && y ≤ year) = [] := by
    rw [List.filter_eq_nil_iff]
    intro a ha
    rcases List.mem_map.mp ha with ⟨g, hg, rfl⟩
    rcases yearScanAux_mem _ _ _ hg with h | h | h <;> subst h <;>
      simp [strToNat]
  rw [hfil]

/-- Because `extract_years` never returns a year, the date voter can only
ever emit its meta-timestamp vote. -/
lemma date_voter_eq (year : ℕ) (text : String) (meta : List (String × String)) :
    date_voter year text meta =
      if metaHasModern year meta then
        [⟨Category.Secondary, 0.8, "meta:modern_pub"⟩]
      else [] := by
  simp [date_voter, extract_years_none year text]

-- ------------------------
-- EVERY VOTE IN THIS CLASSIFIER CARRIES A NONNEGATIVE WEIGHT
-- ------------------------

lemma primary_keywords_nonneg : ∀ p ∈ PRIMARY_KEYWORDS, 0 ≤ p.2 := by
  intro p hp
  fin_cases hp <;> norm_num

lemma secondary_keywords_nonneg : ∀ p ∈ SECONDARY_KEYWORDS, 0 ≤ p.2 := by
  intro p hp
  fin_cases hp <;> norm_num

lemma tertiary_keywords_nonneg : ∀ p ∈ TERTIARY_KEYWORDS, 0 ≤ p.2 := by
  intro p hp
  fin_cases hp <;> norm_num

lemma other_keywords_nonneg : ∀ p ∈ OTHER_KEYWORDS, 0 ≤ p.2 := by
  intro p hp
  fin_cases hp <;> norm_num

lemma kwVotes_nonneg {dict : List (String × ℚ)} {cat : Category}
    {tag joined : String} (hw : ∀ p ∈ dict, 0 ≤ p.2) {v : Vote}
    (hv : v ∈ kwVotes dict cat tag joined) : 0 ≤ v.amount := by
  simp only [kwVotes, List.mem_map, List.mem_filter] at hv
  obtain ⟨kw, ⟨hkw, -⟩, rfl⟩ := hv
  exact hw kw hkw

lemma mem_ite_nil {α : Type} {p : Prop} [Decidable p] {l : List α} {a : α}
    (h : a ∈ if p then l else []) : a ∈ l := by
  by_cases hp : p
  · simpa [hp] using h
  · simp [hp] at h

lemma domain_voter_nonneg {p : UrlParts} {v : Vote}
    (hv : v ∈ domain_voter p) : 0 ≤ v.amount := by
  simp only [domain_voter, List.mem_append] at hv
  rcases hv with ((hv | hv) | hv) | hv <;>
    (have hv2 := mem_ite_nil hv
     simp only [List.mem_cons, List.not_mem_nil, or_false] at hv2
     subst hv2
     norm_num)

lemma url_path_voter_nonneg {p : UrlParts} {v : Vote}
    (hv : v ∈ url_path_voter p) : 0 ≤ v.amount := by
  simp only [url_path_voter, List.mem_append, List.mem_map, List.mem_filter]
    at hv
  rcases hv with (⟨cue, -, rfl⟩ | ⟨cue, -, rfl⟩) | ⟨cue, -, rfl⟩ <;> norm_num

lemma keyword_voter_nonneg {cands : List String} {v : Vote}
    (hv : v ∈ keyword_voter cands) : 0 ≤ v.amount := by
  simp only [keyword_voter, List.mem_append] at hv
  rcases hv with ((hv | hv) | hv) | hv
  · exact kwVotes_nonneg primary_keywords_nonneg hv
  · exact kwVotes_nonneg secondary_keywords_nonneg hv
  · exact kwVotes_nonneg tertiary_keywords_nonneg hv
  · exact kwVotes_nonneg other_keywords_nonneg hv

lemma date_voter_nonneg {year : ℕ} {text : String}
    {meta : List (String × String)} {v : Vote}
    (hv : v ∈ date_voter year text meta) : 0 ≤ v.amount := by
  rw [date_voter_eq] at hv
  have hv2 := mem_ite_nil hv
  simp only [List.mem_cons, List.not_mem_nil, or_false] at hv2
  subst hv2
  norm_num

lemma structure_voter_nonneg {t : String} {v : Vote}
    (hv : v ∈ structure_voter t) : 0 ≤ v.amount := by
  simp only [structure_voter, List.mem_append, List.mem_map, List.mem_filter]
    at hv
  rcases hv with (⟨h, -, rfl⟩ | hv) | hv
  · norm_num
  · have hv2 := mem_ite_nil hv
    simp only [List.mem_cons, List.not_mem_nil, or_false] at hv2
    rcases hv2 with rfl | rfl <;> norm_num
  · have hv2 := mem_ite_nil hv
    simp only [List.mem_cons, List.not_mem_nil, or_false] at hv2
    subst hv2
    norm_num

lemma artifact_voter_nonneg {p : UrlParts} {title text : String} {v : Vote}
    (hv : v ∈ artifact_voter p title text) : 0 ≤ v.amount := by
  simp only [artifact_voter, List.mem_append] at hv
  rcases hv with ((hv | hv) | hv) | hv <;>
    (have hv2 := mem_ite_nil hv
     simp only [List.mem_cons, List.not_mem_nil, or_false] at hv2
     subst hv2
     norm_num)

lemma classifierVotes_nonneg (year : ℕ) (url html : String)
    (hint : Option String) {nv : String × Vote}
    (h : nv ∈ classifierVotes year url html hint) : 0 ≤ nv.2.amount := by
  simp only [classifierVotes, domainVotes, urlPathVotes, keywordVotes,
    dateVotes, structureVotes, artifactVotes, List.mem_append, List.mem_map]
    at h
  rcases h with ((((⟨v, hv, rfl⟩ | ⟨v, hv, rfl⟩) | ⟨v, hv, rfl⟩) | ⟨v, hv, rfl⟩)
    | ⟨v, hv, rfl⟩) | ⟨v, hv, rfl⟩
  · exact domain_voter_nonneg hv
  · exact url_path_voter_nonneg hv
  · exact keyword_voter_nonneg hv
  · exact date_voter_nonneg hv
  · exact structure_voter_nonneg hv
  · exact artifact_voter_nonneg hv

lemma clamped_sum_nonneg (l : List (String × Vote))
    (h : ∀ nv ∈ l, 0 ≤ nv.2.amount) (c : Category) :
    0 ≤ ((l.filter (fun nv => nv.2.category = c)).map
      (fun nv => clampVote nv.2.amount)).sum := by
  apply List.sum_nonneg
  intro x hx
  rcases List.mem_map.mp hx with ⟨nv, hnv, rfl⟩
  exact clampVote_nonneg (h nv (List.mem_of_mem_filter hnv))

lemma clamped_sum_ge (l : List (String × Vote))
    (h : ∀ nv ∈ l, 0 ≤ nv.2.amount) {nv0 : String × Vote} {c : Category}
    (hmem : nv0 ∈ l) (hc : nv0.2.category = c) :
    clampVote nv0.2.amount ≤
      ((l.filter (fun nv => nv.2.category = c)).map
        (fun nv => clampVote nv.2.amount)).sum := by
  apply List.single_le_sum
  · intro x hx
    rcases List.mem_map.mp hx with ⟨nv, hnv, rfl⟩
    exact clampVote_nonneg (h nv (List.mem_of_mem_filter hnv))
  · exact List.mem_map.mpr ⟨nv0, List.mem_filter.mpr ⟨hmem, by simp [hc]⟩, rfl⟩

lemma domainVotes_nonneg {url : String} {nv : String × Vote}
    (h : nv ∈ domainVotes url) : 0 ≤ nv.2.amount := by
  rcases List.mem_map.mp h with ⟨v, hv, rfl⟩
  exact domain_voter_nonneg hv

lemma urlPathVotes_nonneg {url : String} {nv : String × Vote}
    (h : nv ∈ urlPathVotes url) : 0 ≤ nv.2.amount := by
  rcases List.mem_map.mp h with ⟨v, hv, rfl⟩
  exact url_path_voter_nonneg hv

lemma keywordVotes_nonneg {html : String} {hint : Option String}
    {nv : String × Vote} (h : nv ∈ keywordVotes html hint) : 0 ≤ nv.2.amount := by
  rcases List.mem_map.mp h with ⟨v, hv, rfl⟩
  exact keyword_voter_nonneg hv

lemma dateVotes_nonneg {year : ℕ} {html : String} {hint : Option String}
    {nv : String × Vote} (h : nv ∈ dateVotes year html hint) :
    0 ≤ nv.2.amount := by
  rcases List.mem_map.mp h with ⟨v, hv, rfl⟩
  exact date_voter_nonneg hv

lemma structureVotes_nonneg {html : String} {nv : String × Vote}
    (h : nv ∈ structureVotes html) : 0 ≤ nv.2.amount := by
  rcases List.mem_map.mp h with ⟨v, hv, rfl⟩
  exact structure_voter_nonneg hv

lemma artifactVotes_nonneg {url html : String} {nv : String × Vote}
    (h : nv ∈ artifactVotes url html) : 0 ≤ nv.2.amount := by
  rcases List.mem_map.mp h with ⟨v, hv, rfl⟩
  exact artifact_voter_nonneg hv

lemma clamped_sum_append (l1 l2 : List (String × Vote)) (c : Category) :
    (((l1 ++ l2).filter (fun nv => nv.2.category = c)).map
      (fun nv => clampVote nv.2.amount)).sum
    = ((l1.filter (fun nv => nv.2.category = c)).map
        (fun nv => clampVote nv.2.amount)).sum
      + ((l2.filter (fun nv => nv.2.category = c)).map
          (fun nv => clampVote nv.2.amount)).sum := by
  simp [List.filter_append]

-- ------------------------
-- CLAIM THEOREMS
-- ------------------------

/-- C1: for every URL whose lower-cased form contains the CERN override
substring, and any HTML, `classify_source` short-circuits: category
Secondary, confidence 0.98, confidences 0.98 / (0.02/3, 0.02/3, 0.02/3),
raw scores 10.0 / 0.0, and the trigger list holds only the override entry —
no voter runs. -/
theorem override_short_circuit (year : ℕ) (url raw_html : String)
    (hint : Option String) (ex : Bool)
    (h : isSubstr "home.cern/science/computing/birth-web/short-history-web"
      (lowerStr url) = true) :
    (classify_source year url raw_html hint ex).category = Category.Secondary
    ∧ (classify_source year url raw_html hint ex).confidence = 0.98
    ∧ (∀ c, (classify_source year url raw_html hint ex).confidences c =
        if c = Category.Secondary then 0.98 else 0.02 / 3)
    ∧ (∀ c, (classify_source year url raw_html hint ex).scores c =
        if c = Category.Secondary then 10 else 0)
    ∧ (classify_source year url raw_html hint ex).triggers =
        ["override:home.cern/science/computing/birth-web/short-history-web"] := by
  have hfind : EXPLICIT_OVERRIDES.find?
      (fun p => isSubstr p.1 (lowerStr url)) =
      some ("home.cern/science/computing/birth-web/short-history-web",
        Category.Secondary) := by
    simp only [EXPLICIT_OVERRIDES]
    exact List.find?_cons_of_pos _ (by simpa using h)
  simp only [classify_source, hfind]
  norm_num
  decide

/-- C1 witness: the override fires on the canonical CERN URL, regardless of
the supplied HTML. -/
theorem override_short_circuit_witness :
    isSubstr "home.cern/science/computing/birth-web/short-history-web"
      (lowerStr
        "https://home.cern/science/computing/birth-web/short-history-web")
      = true
    ∧ (classify_source 2025
        "https://home.cern/science/computing/birth-web/short-history-web"
        "<html><body>totally unrelated content 1991</body></html>" none
        true).category = Category.Secondary
    ∧ (classify_source 2025
        "https://home.cern/science/computing/birth-web/short-history-web"
        "<html><body>totally unrelated content 1991</body></html>" none
        true).confidence = 0.98 :=
  ⟨by decide,
    (override_short_circuit 2025
      "https://home.cern/science/computing/birth-web/short-history-web"
      "<html><body>totally unrelated content 1991</body></html>" none true
      (by decide)).1,
    (override_short_circuit 2025
      "https://home.cern/science/computing/birth-web/short-history-web"
      "<html><body>totally unrelated content 1991</body></html>" none true
      (by decide)).2.1⟩

/-- C3 (code bug): `extract_years` never returns any year at all — the
`re.findall` pattern has a capturing group, so the matches it returns are
the two-digit captures "18"/"19"/"20", which all fail the `1800 < y`
filter.  In particular a text containing "1991" yields `(None, None)`,
contradicting the claimed `earliest ≤ 1991`. -/
theorem extract_years_always_none :
    (∀ (year : ℕ) (text : String), extract_years year text = (none, none))
    ∧ extract_years 2025 "published in 1991" = (none, none) :=
  ⟨extract_years_none, extract_years_none 2025 "published in 1991"⟩

/-- C4 (code bug): because `extract_years` never returns a year, the date
voter can only ever emit the `meta:modern_pub` vote; on a page whose text
contains the years 1991 and 2020 (and no timestamp meta fields) it emits no
votes at all — neither the Primary early-window vote (1.4) nor the
Secondary modern-retrospective vote (1.7) can ever fire. -/
theorem date_voter_never_emits_window_votes :
    (∀ (year : ℕ) (text : String) (meta : List (String × String)),
      date_voter year text meta =
        if metaHasModern year meta then
          [⟨Category.Secondary, 0.8, "meta:modern_pub"⟩]
        else [])
    ∧ date_voter 2025 "In 1991 the Web was born; this page was updated in 2020."
        [] = [] :=
  ⟨date_voter_eq, by decide⟩

/-- C5: every single vote changes a tally score by at most ±PER_VOTER_CAP
(3.5), and on the voting path (no override) every per-category score of the
returned result lies within ±PER_CATEGORY_CAP (8.0). -/
theorem vote_and_category_caps :
    (∀ (t : Tally) (cat : Category) (amt : ℚ) (r : String) (c : Category),
      -PER_VOTER_CAP ≤ (t.add cat amt r).scores c - t.scores c
        ∧ (t.add cat amt r).scores c - t.scores c ≤ PER_VOTER_CAP)
    ∧ (∀ (year : ℕ) (url raw_html : String) (hint : Option String) (ex : Bool),
        EXPLICIT_OVERRIDES.find? (fun p => isSubstr p.1 (lowerStr url)) = none →
        ∀ c,
          -PER_CATEGORY_CAP ≤ (classify_source year url raw_html hint ex).scores c
          ∧ (classify_source year url raw_html hint ex).scores c
              ≤ PER_CATEGORY_CAP) := by
  constructor
  · intro t cat amt r c
    rw [Tally.add_scores]
    by_cases h : c = cat
    · rw [if_pos h]
      have hb := clampVote_bounds amt
      constructor <;> linarith [hb.1, hb.2]
    · rw [if_neg h]
      simp only [sub_self]
      constructor <;> norm_num [PER_VOTER_CAP]
  · intro year url raw_html hint ex hov c
    have hs : (classify_source year url raw_html hint ex).scores c
        = clampCategory ((classifierTally year url raw_html hint).scores c) := by
      simp only [classify_source, hov]
      rfl
    rw [hs]
    exact clampCategory_bounds _

/-- C5 witness. -/
theorem vote_and_category_caps_witness :
    EXPLICIT_OVERRIDES.find? (fun p => isSubstr p.1 (lowerStr "")) = none
    ∧ (-PER_CATEGORY_CAP ≤ (classify_source 2025 "" "" none true).scores
          Category.Primary
        ∧ (classify_source 2025 "" "" none true).scores Category.Primary
            ≤ PER_CATEGORY_CAP) :=
  ⟨by decide,
    vote_and_category_caps.2 2025 "" "" none true (by decide) Category.Primary⟩

/-- C7: with the current year fixed, `classify_source` is a pure function of
its four arguments — two calls with identical arguments return identical
results in every component.  (In this state-free embedding the absence of
process-wide mutation is by construction; the source likewise touches no
global mutable state.) -/
theorem classify_source_deterministic (year : ℕ) (url1 url2 html1 html2 : String)
    (hint1 hint2 : Option String) (ex1 ex2 : Bool)
    (hu : url1 = url2) (hh : html1 = html2) (hm : hint1 = hint2)
    (he : ex1 = ex2) :
    classify_source year url1 html1 hint1 ex1
      = classify_source year url2 html2 hint2 ex2 := by
  rw [hu, hh, hm, he]

/-- C7 witness: two calls with identical concrete arguments. -/
theorem classify_source_deterministic_witness :
    ("https://example.org/a" : String) = "https://example.org/a"
    ∧ classify_source 2025 "https://example.org/a" "<p>x</p>" none true
        = classify_source 2025 "https://example.org/a" "<p>x</p>" none true :=
  ⟨rfl,
    classify_source_deterministic 2025 "https://example.org/a"
      "https://example.org/a" "<p>x</p>" "<p>x</p>" none none true true
      rfl rfl rfl rfl⟩

/-- C9 counterexample: the claim says a title containing "rfc" (e.g.
"RFC1945") forces the 1.8 Primary artifact vote, but the source tests for
the substring `"rfc "` — with a trailing space — so on title "RFC1945"
(and no `/rfc/` path, no other cues) the artifact voter emits no votes at
all. -/
theorem artifact_rfc_counterexample :
    isSubstr "rfc" (lowerStr "RFC1945") = true
    ∧ artifact_voter ⟨"", "", "", ""⟩ "RFC1945" "" = [] :=
  ⟨by decide, by decide⟩

/-- C9 (amended): the artifact voter emits the Primary vote of weight 1.8
with reason "artifact:rfc" exactly when the URL path contains "/rfc/" or
the lower-cased title contains "rfc " (with a trailing space). -/
theorem artifact_rfc_vote_iff (p : UrlParts) (title text : String) :
    (⟨Category.Primary, 1.8, "artifact:rfc"⟩ : Vote) ∈ artifact_voter p title text
    ↔ (isSubstr "/rfc/" p.path = true
        ∨ isSubstr "rfc " (lowerStr title) = true) := by
  simp only [artifact_voter, List.mem_append]
  constructor
  · intro h
    rcases h with ((h | h) | h) | h
    · have h2 := mem_ite_nil h
      simp [Vote.mk.injEq] at h2
    · by_cases hc : (isSubstr "/rfc/" p.path
          || isSubstr "rfc " (lowerStr title)) = true
      · simpa using hc
      · simp [hc] at h
    · have h2 := mem_ite_nil h
      simp [Vote.mk.injEq] at h2
    · have h2 := mem_ite_nil h
      simp [Vote.mk.injEq] at h2
  · intro h
    have hc : (isSubstr "/rfc/" p.path
        || isSubstr "rfc " (lowerStr title)) = true := by
      rcases h with h | h <;> simp [h]
    refine Or.inl (Or.inl (Or.inr ?_))
    simp [hc]

-- Component equations for the voting branch of classify_source.

lemma classify_none_confidences (year : ℕ) (url raw_html : String)
    (hint : Option String) (ex : Bool)
    (hov : EXPLICIT_OVERRIDES.find? (fun p => isSubstr p.1 (lowerStr url)) = none) :
    (classify_source year url raw_html hint ex).confidences
      = softmax (cappedTally year url raw_html hint).scores SOFTMAX_TEMP := by
  simp only [classify_source, hov]

lemma classify_none_scores (year : ℕ) (url raw_html : String)
    (hint : Option String) (ex : Bool)
    (hov : EXPLICIT_OVERRIDES.find? (fun p => isSubstr p.1 (lowerStr url)) = none) :
    (classify_source year url raw_html hint ex).scores
      = (cappedTally year url raw_html hint).scores := by
  simp only [classify_source, hov]

lemma classify_none_category (year : ℕ) (url raw_html : String)
    (hint : Option String) (ex : Bool)
    (hov : EXPLICIT_OVERRIDES.find? (fun p => isSubstr p.1 (lowerStr url)) = none) :
    (classify_source year url raw_html hint ex).category
      = pyMaxKey (softmax (cappedTally year url raw_html hint).scores
          SOFTMAX_TEMP) := by
  simp only [classify_source, hov]

lemma classify_none_confidence (year : ℕ) (url raw_html : String)
    (hint : Option String) (ex : Bool)
    (hov : EXPLICIT_OVERRIDES.find? (fun p => isSubstr p.1 (lowerStr url)) = none) :
    (classify_source year url raw_html hint ex).confidence
      = softmax (cappedTally year url raw_html hint).scores SOFTMAX_TEMP
          (pyMaxKey (softmax (cappedTally year url raw_html hint).scores
            SOFTMAX_TEMP)) := by
  simp only [classify_source, hov]

lemma cappedTally_scores (year : ℕ) (url raw_html : String)
    (hint : Option String) (c : Category) :
    (cappedTally year url raw_html hint).scores c
      = clampCategory ((classifierTally year url raw_html hint).scores c) := by
  simp only [cappedTally, Tally.cap_categories]

-- Component equations for the override branch.

lemma classify_some_category (year : ℕ) (url raw_html : String)
    (hint : Option String) (ex : Bool) (pr : String × Category)
    (hfind : EXPLICIT_OVERRIDES.find?
      (fun p => isSubstr p.1 (lowerStr url)) = some pr) :
    (classify_source year url raw_html hint ex).category = pr.2 := by
  simp only [classify_source, hfind]

lemma classify_some_confidence (year : ℕ) (url raw_html : String)
    (hint : Option String) (ex : Bool) (pr : String × Category)
    (hfind : EXPLICIT_OVERRIDES.find?
      (fun p => isSubstr p.1 (lowerStr url)) = some pr) :
    (classify_source year url raw_html hint ex).confidence = 0.98 := by
  simp only [classify_source, hfind]

lemma classify_some_confidences (year : ℕ) (url raw_html : String)
    (hint : Option String) (ex : Bool) (pr : String × Category)
    (hfind : EXPLICIT_OVERRIDES.find?
      (fun p => isSubstr p.1 (lowerStr url)) = some pr) :
    (classify_source year url raw_html hint ex).confidences
      = fun c => if c = pr.2 then (0.98 : ℝ) else 0.02 / 3 := by
  simp only [classify_source, hfind]

lemma classify_some_scores (year : ℕ) (url raw_html : String)
    (hint : Option String) (ex : Bool) (pr : String × Category)
    (hfind : EXPLICIT_OVERRIDES.find?
      (fun p => isSubstr p.1 (lowerStr url)) = some pr) :
    (classify_source year url raw_html hint ex).scores
      = fun c => if c = pr.2 then (10 : ℚ) else 0 := by
  simp only [classify_source, hfind]

/-- C2: on every input the confidences map is a probability distribution
over exactly the four categories: each value in [0,1], the values sum to 1
within 1e-9, and exactly equal (capped) scores receive exactly equal
confidences. -/
theorem classify_confidences_distribution (year : ℕ) (url raw_html : String)
    (hint : Option String) (ex : Bool) :
    (CATEGORIES.Nodup ∧ ∀ c, c ∈ CATEGORIES)
    ∧ (∀ c, 0 ≤ (classify_source year url raw_html hint ex).confidences c
        ∧ (classify_source year url raw_html hint ex).confidences c ≤ 1)
    ∧ |(CATEGORIES.map
          (classify_source year url raw_html hint ex).confidences).sum - 1|
        ≤ 1 / 1000000000
    ∧ (∀ c c₂,
        (classify_source year url raw_html hint ex).scores c =
          (classify_source year url raw_html hint ex).scores c₂ →
        (classify_source year url raw_html hint ex).confidences c =
          (classify_source year url raw_html hint ex).confidences c₂) := by
  refine ⟨⟨by decide, fun c => by rcases c <;> decide⟩, ?_⟩
  rcases hfind : EXPLICIT_OVERRIDES.find? (fun p => isSubstr p.1 (lowerStr url))
    with _ | pr
  · rw [classify_none_confidences year url raw_html hint ex hfind,
      classify_none_scores year url raw_html hint ex hfind]
    refine ⟨fun c => ⟨(softmax_pos _ _ c).le, softmax_le_one _ _ c⟩, ?_,
      fun c c₂ h => softmax_congr _ _ c c₂ h⟩
    rw [softmax_sum]
    norm_num
  · rw [classify_some_confidences year url raw_html hint ex pr hfind,
      classify_some_scores year url raw_html hint ex pr hfind]
    refine ⟨fun c => ?_, ?_, fun c c₂ h => ?_⟩
    · by_cases hc : c = pr.2 <;> simp [hc] <;> norm_num
    · rcases pr with ⟨sub, cat⟩
      rcases cat <;> simp [CATEGORIES] <;> rw [abs_le] <;> constructor <;>
        norm_num
    · by_cases h1 : c = pr.2 <;> by_cases h2 : c₂ = pr.2 <;>
        simp [h1, h2] at h ⊢

/-- C6: the returned category attains the maximal confidence, every
category strictly earlier in the enumeration (Primary, Secondary, Tertiary,
Other) has strictly smaller confidence — so the first maximum wins exact
ties — and the confidence field equals the selected category's confidence. -/
theorem category_first_argmax (year : ℕ) (url raw_html : String)
    (hint : Option String) (ex : Bool) :
    (∀ c, (classify_source year url raw_html hint ex).confidences c ≤
        (classify_source year url raw_html hint ex).confidences
          (classify_source year url raw_html hint ex).category)
    ∧ (∀ c, catIdx c <
          catIdx (classify_source year url raw_html hint ex).category →
        (classify_source year url raw_html hint ex).confidences c <
          (classify_source year url raw_html hint ex).confidences
            (classify_source year url raw_html hint ex).category)
    ∧ (classify_source year url raw_html hint ex).confidence =
        (classify_source year url raw_html hint ex).confidences
          (classify_source year url raw_html hint ex).category := by
  rcases hfind : EXPLICIT_OVERRIDES.find? (fun p => isSubstr p.1 (lowerStr url))
    with _ | pr
  · rw [classify_none_confidences year url raw_html hint ex hfind,
      classify_none_category year url raw_html hint ex hfind,
      classify_none_confidence year url raw_html hint ex hfind]
    exact ⟨(pyMaxKey_argmax _).1, (pyMaxKey_argmax _).2, rfl⟩
  · have hsub := List.mem_of_find?_eq_some hfind
    simp only [EXPLICIT_OVERRIDES, List.mem_singleton] at hsub
    rw [classify_some_confidences year url raw_html hint ex pr hfind,
      classify_some_category year url raw_html hint ex pr hfind,
      classify_some_confidence year url raw_html hint ex pr hfind]
    subst hsub
    refine ⟨fun c => ?_, fun c hlt => ?_, ?_⟩
    · rcases c
      · dsimp only
        rw [if_neg (by decide : ¬(Category.Primary = Category.Secondary)),
          if_pos (rfl : Category.Secondary = Category.Secondary)]
        norm_num
      · exact le_rfl
      · dsimp only
        rw [if_neg (by decide : ¬(Category.Tertiary = Category.Secondary)),
          if_pos (rfl : Category.Secondary = Category.Secondary)]
        norm_num
      · dsimp only
        rw [if_neg (by decide : ¬(Category.Other = Category.Secondary)),
          if_pos (rfl : Category.Secondary = Category.Secondary)]
        norm_num
    · rcases c
      · dsimp only
        rw [if_neg (by decide : ¬(Category.Primary = Category.Secondary)),
          if_pos (rfl : Category.Secondary = Category.Secondary)]
        norm_num
      · exact absurd hlt (by decide)
      · exact absurd hlt (by decide)
      · exact absurd hlt (by decide)
    · dsimp only
      rw [if_pos (rfl : Category.Secondary = Category.Secondary)]

/-- C10: on the voting path, when all four capped category scores are
exactly equal, softmax assigns exactly 0.25 to each category and the
selected category is Primary, the first of the enumeration (in particular
this covers classify_source("", ""), where every capped score is 0). -/
theorem equal_scores_uniform (year : ℕ) (url raw_html : String)
    (hint : Option String) (ex : Bool)
    (hov : EXPLICIT_OVERRIDES.find? (fun p => isSubstr p.1 (lowerStr url)) = none)
    (heq : ∀ c c₂, (cappedTally year url raw_html hint).scores c =
        (cappedTally year url raw_html hint).scores c₂) :
    (∀ c, (classify_source year url raw_html hint ex).confidences c = 1 / 4)
    ∧ (classify_source year url raw_html hint ex).category = Category.Primary := by
  constructor
  · rw [classify_none_confidences year url raw_html hint ex hov]
    exact fun c => softmax_uniform _ _ heq c
  · rw [classify_none_category year url raw_html hint ex hov]
    have huni : ∀ c, softmax (cappedTally year url raw_html hint).scores
        SOFTMAX_TEMP c = 1 / 4 := softmax_uniform _ _ heq
    simp only [pyMaxKey, List.foldl_cons, List.foldl_nil, huni]
    norm_num

/-- C10 witness: the empty call classify_source("", "") has all capped
scores equal (all 0.0), uniform confidences 0.25, and selects Primary. -/
theorem equal_scores_uniform_witness :
    EXPLICIT_OVERRIDES.find? (fun p => isSubstr p.1 (lowerStr "")) = none
    ∧ (classify_source 2025 "" "" none true).confidences Category.Other = 1 / 4
    ∧ (classify_source 2025 "" "" none true).category = Category.Primary :=
  ⟨by decide,
    (equal_scores_uniform 2025 "" "" none true (by decide) (by decide)).1
      Category.Other,
    (equal_scores_uniform 2025 "" "" none true (by decide) (by decide)).2⟩

/-- C8: for a URL with domain en.wikipedia.org and a path containing
"/wiki/", when the rest of the input contributes no votes to Primary,
Secondary or Other (their tallies are zero), both the 2.2 Tertiary domain
vote and the 2.0 Tertiary path vote fire, so the classifier selects
Tertiary with confidence strictly greater than 0.4. -/
theorem wikipedia_tertiary (year : ℕ) (url raw_html : String)
    (hint : Option String) (ex : Bool)
    (hd : (parse_url url).domain = "en.wikipedia.org")
    (hp : isSubstr "/wiki/" (parse_url url).path = true)
    (hov : EXPLICIT_OVERRIDES.find? (fun p => isSubstr p.1 (lowerStr url)) = none)
    (hP : (classifierTally year url raw_html hint).scores Category.Primary = 0)
    (hS : (classifierTally year url raw_html hint).scores Category.Secondary = 0)
    (hO : (classifierTally year url raw_html hint).scores Category.Other = 0) :
    (classify_source year url raw_html hint ex).category = Category.Tertiary
    ∧ 2 / 5 < (classify_source year url raw_html hint ex).confidence := by
  -- The domain voter fires exactly its Tertiary vote.
  have h1 : any_in DOMAIN_HINTS_PRIMARY "en.wikipedia.org" = false := by decide
  have h2 : any_in DOMAIN_HINTS_SECONDARY "en.wikipedia.org" = false := by decide
  have h3 : any_in DOMAIN_HINTS_TERTIARY "en.wikipedia.org" = true := by decide
  have h4 : any_in DOMAIN_HINTS_OTHER "en.wikipedia.org" = false := by decide
  have hdv : domain_voter (parse_url url) =
      [⟨Category.Tertiary, 2.2, "domain:tertiary:" ++ "en.wikipedia.org"⟩] := by
    simp only [domain_voter]
    rw [hd, h1, h2, h3, h4]
    simp
  -- The URL-path voter fires its "/wiki/" Tertiary vote.
  have hw0 := isInfixL_map Char.toLower (hp : isInfixL "/wiki/".data
    (parse_url url).path.data = true)
  rw [show ("/wiki/".data.map Char.toLower) = "/wiki/".data from by decide] at hw0
  have hcue : isSubstr "/wiki/"
      (lowerStr ((parse_url url).path ++ "?" ++ (parse_url url).query)) = true := by
    show isInfixL "/wiki/".data
      ((((parse_url url).path ++ "?" ++ (parse_url url).query)).data.map
        Char.toLower) = true
    rw [String.data_append, String.data_append, List.map_append, List.map_append]
    exact isInfixL_append_left _ (isInfixL_append_left _ hw0)
  have hmemB : (⟨Category.Tertiary, 2.0, "url:tertiary:" ++ "/wiki/"⟩ : Vote)
      ∈ url_path_voter (parse_url url) := by
    simp only [url_path_voter, List.mem_append, List.mem_map, List.mem_filter]
    exact Or.inr ⟨"/wiki/", ⟨by decide, hcue⟩, rfl⟩
  -- Pre-cap Tertiary score is at least 2.2 + 2.0.
  have hT : 21 / 5 ≤ (classifierTally year url raw_html hint).scores
      Category.Tertiary := by
    rw [classifierTally, foldl_add_scores]
    rw [show Tally.start.scores Category.Tertiary = 0 from rfl, zero_add]
    rw [show classifierVotes year url raw_html hint
        = domainVotes url ++ urlPathVotes url ++ keywordVotes raw_html hint
          ++ dateVotes year raw_html hint ++ structureVotes raw_html
          ++ artifactVotes url raw_html from rfl]
    rw [clamped_sum_append, clamped_sum_append, clamped_sum_append,
      clamped_sum_append, clamped_sum_append]
    have hA : (((domainVotes url).filter
        (fun nv => nv.2.category = Category.Tertiary)).map
          (fun nv => clampVote nv.2.amount)).sum = clampVote 2.2 := by
      rw [domainVotes, hdv]
      simp
    have hmem : (("url_path",
        ⟨Category.Tertiary, 2.0, "url:tertiary:" ++ "/wiki/"⟩) :
          String × Vote) ∈ urlPathVotes url :=
      List.mem_map.mpr ⟨_, hmemB, rfl⟩
    have hB := @clamped_sum_ge (urlPathVotes url)
      (fun nv hnv => urlPathVotes_nonneg hnv)
      ("url_path", ⟨Category.Tertiary, 2.0, "url:tertiary:" ++ "/wiki/"⟩)
      Category.Tertiary hmem rfl
    have hC := clamped_sum_nonneg (keywordVotes raw_html hint)
      (fun nv hnv => keywordVotes_nonneg hnv) Category.Tertiary
    have hD := clamped_sum_nonneg (dateVotes year raw_html hint)
      (fun nv hnv => dateVotes_nonneg hnv) Category.Tertiary
    have hE := clamped_sum_nonneg (structureVotes raw_html)
      (fun nv hnv => structureVotes_nonneg hnv) Category.Tertiary
    have hF := clamped_sum_nonneg (artifactVotes url raw_html)
      (fun nv hnv => artifactVotes_nonneg hnv) Category.Tertiary
    rw [hA]
    rw [clampVote_eq_of_le (by norm_num) (by norm_num [PER_VOTER_CAP])]
    rw [show clampVote (("url_path",
        (⟨Category.Tertiary, 2.0, "url:tertiary:" ++ "/wiki/"⟩ : Vote)) :
          String × Vote).2.amount = (2.0 : ℚ) from
      clampVote_eq_of_le (by norm_num) (by norm_num [PER_VOTER_CAP])] at hB
    linarith
  -- Capped scores: 0 / 0 / [4.2, 8] / 0.
  have hsP : (cappedTally year url raw_html hint).scores Category.Primary = 0 := by
    rw [cappedTally_scores, hP, clampCategory_zero]
  have hsS : (cappedTally year url raw_html hint).scores Category.Secondary = 0 := by
    rw [cappedTally_scores, hS, clampCategory_zero]
  have hsO : (cappedTally year url raw_html hint).scores Category.Other = 0 := by
    rw [cappedTally_scores, hO, clampCategory_zero]
  have hsT : 21 / 5 ≤ (cappedTally year url raw_html hint).scores
      Category.Tertiary := by
    rw [cappedTally_scores]
    exact (clampCategory_of_le hT).1
  set s := (cappedTally year url raw_html hint).scores with hsdef
  have ht0 : (0 : ℚ) < s Category.Tertiary := lt_of_lt_of_le (by norm_num) hsT
  -- The maximum score is the Tertiary score.
  have hmax : maxValQ s = s Category.Tertiary := by
    simp only [maxValQ, List.foldl_cons, List.foldl_nil, hsP, hsS, hsO]
    rw [show pyMax (0 : ℚ) 0 = 0 from by simp [pyMax]]
    rw [show pyMax (0 : ℚ) (s Category.Tertiary) = s Category.Tertiary from by
      simp only [pyMax]
      rw [if_pos ht0]]
    simp only [pyMax]
    rw [if_neg (not_lt.mpr ht0.le)]
  -- Exponentials.
  have heT : softmaxExp s SOFTMAX_TEMP Category.Tertiary = 1 := by
    simp [softmaxExp, hmax]
  have heP : softmaxExp s SOFTMAX_TEMP Category.Primary
      = Real.exp (-(((s Category.Tertiary : ℚ) : ℝ) / SOFTMAX_TEMP)) := by
    simp [softmaxExp, hmax, hsP, neg_div]
  have heS : softmaxExp s SOFTMAX_TEMP Category.Secondary
      = Real.exp (-(((s Category.Tertiary : ℚ) : ℝ) / SOFTMAX_TEMP)) := by
    simp [softmaxExp, hmax, hsS, neg_div]
  have heO : softmaxExp s SOFTMAX_TEMP Category.Other
      = Real.exp (-(((s Category.Tertiary : ℚ) : ℝ) / SOFTMAX_TEMP)) := by
    simp [softmaxExp, hmax, hsO, neg_div]
  set e := Real.exp (-(((s Category.Tertiary : ℚ) : ℝ) / SOFTMAX_TEMP)) with hedef
  have he0 : (0 : ℝ) < e := Real.exp_pos _
  have hx : (84 / 25 : ℝ) ≤ ((s Category.Tertiary : ℚ) : ℝ) / SOFTMAX_TEMP := by
    have hc : (21 / 5 : ℝ) ≤ ((s Category.Tertiary : ℚ) : ℝ) := by
      have hc0 : ((21 / 5 : ℚ) : ℝ) ≤ ((s Category.Tertiary : ℚ) : ℝ) :=
        Rat.cast_le.mpr hsT
      norm_num at hc0
      exact hc0
    rw [show (SOFTMAX_TEMP : ℝ) = 5 / 4 from by norm_num [SOFTMAX_TEMP]]
    rw [le_div_iff₀ (by norm_num : (0 : ℝ) < 5 / 4)]
    linarith
  have he2 : e < 1 / 2 := by
    rw [hedef, Real.exp_neg]
    have hgt : (2 : ℝ) < Real.exp (((s Category.Tertiary : ℚ) : ℝ) / SOFTMAX_TEMP) := by
      have := Real.add_one_le_exp
        (((s Category.Tertiary : ℚ) : ℝ) / SOFTMAX_TEMP)
      linarith
    have hep : (0 : ℝ) < Real.exp
        (((s Category.Tertiary : ℚ) : ℝ) / SOFTMAX_TEMP) := Real.exp_pos _
    have hmul : Real.exp (((s Category.Tertiary : ℚ) : ℝ) / SOFTMAX_TEMP)
        * (Real.exp (((s Category.Tertiary : ℚ) : ℝ) / SOFTMAX_TEMP))⁻¹ = 1 :=
      mul_inv_cancel₀ (ne_of_gt hep)
    have hip : (0 : ℝ) < (Real.exp
        (((s Category.Tertiary : ℚ) : ℝ) / SOFTMAX_TEMP))⁻¹ := inv_pos.mpr hep
    nlinarith
  have he1 : e < 1 := lt_trans he2 (by norm_num)
  -- Denominator and confidences.
  have hden : softmaxDenom s SOFTMAX_TEMP = 3 * e + 1 := by
    simp only [softmaxDenom, CATEGORIES, List.map_cons, List.map_nil,
      List.sum_cons, List.sum_nil, add_zero, heP, heS, heT, heO]
    ring
  have hdpos : (0 : ℝ) < 3 * e + 1 := by linarith
  have hconfT : softmax s SOFTMAX_TEMP Category.Tertiary = 1 / (3 * e + 1) := by
    rw [softmax_apply, heT, hden]
  have hconfP : softmax s SOFTMAX_TEMP Category.Primary = e / (3 * e + 1) := by
    rw [softmax_apply, heP, hden]
  have hconfS : softmax s SOFTMAX_TEMP Category.Secondary = e / (3 * e + 1) := by
    rw [softmax_apply, heS, hden]
  have hconfO : softmax s SOFTMAX_TEMP Category.Other = e / (3 * e + 1) := by
    rw [softmax_apply, heO, hden]
  have hTgt : 2 / 5 < softmax s SOFTMAX_TEMP Category.Tertiary := by
    rw [hconfT, lt_div_iff₀ hdpos]
    nlinarith
  have hlt : ∀ c, c ≠ Category.Tertiary →
      softmax s SOFTMAX_TEMP c < softmax s SOFTMAX_TEMP Category.Tertiary := by
    intro c hc
    have hfrac : e / (3 * e + 1) < 1 / (3 * e + 1) :=
      (div_lt_div_iff_of_pos_right hdpos).mpr he1
    rcases c with _ | _ | _ | _
    · rw [hconfP, hconfT]; exact hfrac
    · rw [hconfS, hconfT]; exact hfrac
    · exact absurd rfl hc
    · rw [hconfO, hconfT]; exact hfrac
  have hK : pyMaxKey (softmax s SOFTMAX_TEMP) = Category.Tertiary := by
    rcases hKc : pyMaxKey (softmax s SOFTMAX_TEMP) with _ | _ | _ | _
    · have hle := (pyMaxKey_argmax (softmax s SOFTMAX_TEMP)).1 Category.Tertiary
      rw [hKc] at hle
      exact absurd hle (not_le.mpr (hlt Category.Primary (by decide)))
    · have hle := (pyMaxKey_argmax (softmax s SOFTMAX_TEMP)).1 Category.Tertiary
      rw [hKc] at hle
      exact absurd hle (not_le.mpr (hlt Category.Secondary (by decide)))
    · rfl
    · have hle := (pyMaxKey_argmax (softmax s SOFTMAX_TEMP)).1 Category.Tertiary
      rw [hKc] at hle
      exact absurd hle (not_le.mpr (hlt Category.Other (by decide)))
  constructor
  · rw [classify_none_category year url raw_html hint ex hov, ← hsdef]
    exact hK
  · rw [classify_none_confidence year url raw_html hint ex hov, ← hsdef, hK]
    exact hTgt

/-- C8 witness: a concrete Wikipedia article URL with empty HTML. -/
theorem wikipedia_tertiary_witness :
    (parse_url "https://en.wikipedia.org/wiki/History_of_the_Web").domain
      = "en.wikipedia.org"
    ∧ isSubstr "/wiki/"
        (parse_url "https://en.wikipedia.org/wiki/History_of_the_Web").path = true
    ∧ EXPLICIT_OVERRIDES.find? (fun p => isSubstr p.1
        (lowerStr "https://en.wikipedia.org/wiki/History_of_the_Web")) = none
    ∧ (classifierTally 2025 "https://en.wikipedia.org/wiki/History_of_the_Web"
        "" none).scores Category.Primary = 0
    ∧ (classify_source 2025 "https://en.wikipedia.org/wiki/History_of_the_Web"
        "" none true).category = Category.Tertiary
    ∧ 2 / 5 < (classify_source 2025
        "https://en.wikipedia.org/wiki/History_of_the_Web" "" none
        true).confidence :=
  ⟨by decide, by decide, by decide, by decide,
    (wikipedia_tertiary 2025 "https://en.wikipedia.org/wiki/History_of_the_Web"
      "" none true (by decide) (by decide) (by decide) (by decide) (by decide)
      (by decide)).1,
    (wikipedia_tertiary 2025 "https://en.wikipedia.org/wiki/History_of_the_Web"
      "" none true (by decide) (by decide) (by decide) (by decide) (by decide)
      (by decide)).2⟩
